import Mathlib

/-!
Shallow embedding of `scripts/transform_24_to_25.py` and
`scripts/verify_yaml.py`.

JSON/YAML data is modelled by `Value`.  Python dicts preserve insertion
order and (coming from `json.load` / `yaml.safe_load`) have unique string
keys, so records are association lists of string keys.  JSON numbers are
modelled as integers; no behaviour relevant to the claims depends on
fractional values.
-/

/-- A JSON/YAML-like Python value as produced by `json.load` or
`yaml.safe_load`: `None`, booleans, numbers, strings, lists and dicts. -/
inductive Value where
  | null
  | bool (b : Bool)
  | int (n : Int)
  | str (s : String)
  | list (l : List Value)
  | dict (d : List (String × Value))

/-- A Python dict with string keys, in insertion order. -/
abbrev Record := List (String × Value)

/-- First-match association-list lookup (Python dict lookup; the dicts built
by the scripts have unique keys). -/
def lookupA {α : Type} : List (String × α) → String → Option α
  | [], _ => none
  | (k, v) :: t, key => if k = key then some v else lookupA t key

/-- Python `d.get(k, default)`. -/
def getVD (r : Record) (k : String) (dflt : Value) : Value :=
  (lookupA r k).getD dflt

/-- Python `d.get(k)`: default is `None`. -/
def getV (r : Record) (k : String) : Value :=
  getVD r k Value.null

/-- Python truthiness of a value. -/
def truthy : Value → Bool
  | .null => false
  | .bool b => b
  | .int n => n != 0
  | .str s => s != ""
  | .list l => !l.isEmpty
  | .dict d => !d.isEmpty

/-- Python `x or y`. -/
def pyOr (v w : Value) : Value :=
  if truthy v then v else w

/-- Python `v in (None, ...)` for the empty values pruned by the
normalizers: `None`, an empty dict or an empty list (by equality). -/
def isEmptyVal : Value → Bool
  | .null => true
  | .list [] => true
  | .dict [] => true
  | _ => false

/-- The final dict comprehension every normalizer except `normalize_org`
ends with: keep the pairs whose value is not `None`, an empty dict or an
empty list. -/
def pyPrune (r : Record) : Record :=
  r.filter (fun kv => !isEmptyVal kv.2)

/-- The whitespace characters `str.strip()` removes (ASCII subset; the
exports contain no exotic Unicode whitespace). -/
def isPySpace (c : Char) : Bool :=
  c == ' ' || c == '\t' || c == '\n' || c == '\r' || c == '\x0b' || c == '\x0c'

/-- Strip leading and trailing whitespace from a character list. -/
def stripChars (l : List Char) : List Char :=
  ((l.dropWhile isPySpace).reverse.dropWhile isPySpace).reverse

/-- Python `s.strip()`. -/
def pyStrip (s : String) : String :=
  String.mk (stripChars s.data)

/-- `_stripped`: strip surrounding whitespace from strings; return the value
unchanged for non-strings. -/
def _stripped : Value → Value
  | .str s => .str (pyStrip s)
  | v => v

/-- `_name`: resolve an object's name, supporting either a string or a dict
with a `name` entry.  A dict yields its `name` value (`None` when absent), a
string yields itself, and any other value yields `None`.  Total: the source
never raises here. -/
def _name : Value → Value
  | .dict d => getV d "name"
  | .str s => .str s
  | _ => Value.null

/-- `CREDTYPE_MAP`: map 2.4 credential type names to the 2.5 display names
used by `infra.aap_configuration`. -/
def CREDTYPE_MAP : List (String × String) := [
  ("Machine", "Machine"),
  ("Source Control", "Source Control"),
  ("Vault", "Vault"),
  ("Amazon Web Services", "Amazon Web Services"),
  ("OpenShift or Kubernetes API Bearer Token", "OpenShift or Kubernetes API Bearer Token"),
  ("OpenShift or Kubernetes API Certificate", "OpenShift or Kubernetes API Certificate")]

/-- `CREDTYPE_MAP.get(ct_name, ct_name)`.  `dict.get` hashes its argument:
an unhashable key (a list or a dict) raises `TypeError`, modelled as `none`;
hashable non-string keys are simply not found and fall back to the default. -/
def credtypeGet : Value → Option Value
  | .str s => some (.str ((lookupA CREDTYPE_MAP s).getD s))
  | .list _ => none
  | .dict _ => none
  | v => some v

/-- The fixed sensitive-key set stripped from credential `inputs`. -/
def SENSITIVE_KEYS : List String :=
  ["password", "secret", "ssh_key_data", "ssh_key_unlock", "token",
   "client_secret", "become_password"]

/-- `inputs.pop(key, None)` on a unique-key dict: drop the entry. -/
def popKey (d : Record) (k : String) : Record :=
  d.filter (fun kv => kv.1 != k)

/-- Requiring a dict where Python would call `.get` on the value or copy it
with `dict(...)`: a mapping is used as-is, any truthy non-mapping raises
(`AttributeError` for `.get`, `TypeError` for `dict(...)`; the JSON exports
always store these fields as objects), modelled as `none`.  Falsy values
have already been replaced by an empty dict via `or`. -/
def pyDict : Value → Option Record
  | .dict d => some d
  | _ => none

/-- `normalize_org`: keep only the name (stripped) plus the fixed state.
Note: this is the one normalizer without the final pruning comprehension. -/
def normalize_org (o : Record) : Record :=
  [("name", _stripped (getV o "name")), ("state", .str "present")]

/-- `normalize_credential`: convert the credential type name/kind through
`CREDTYPE_MAP`, resolve the organization by name, remove sensitive keys from
`inputs`, then prune empty fields. -/
def normalize_credential (c : Record) : Option Record :=
  match pyDict (pyOr (getV c "credential_type") (.dict [])) with
  | none => none
  | some ct =>
    match credtypeGet (pyOr (getV ct "name") (getV c "kind")) with
    | none => none
    | some ctName =>
      match pyDict (pyOr (getV c "inputs") (.dict [])) with
      | none => none
      | some inputs0 =>
        let org := pyOr (_name (getV c "organization")) (_name (getV c "organization_id"))
        let inputs := SENSITIVE_KEYS.foldl popKey inputs0
        some (pyPrune [
          ("name", _stripped (getV c "name")),
          ("description", pyOr (getV c "description") (.str "")),
          ("organization", if truthy org then _stripped org else Value.null),
          ("credential_type", ctName),
          ("inputs", pyOr (.dict inputs) (.dict [])),
          ("state", .str "present")])

/-- `normalize_project`. -/
def normalize_project (p : Record) : Record :=
  let scm_type := pyOr (getV p "scm_type")
    (if truthy (getV p "scm_url") then .str "git" else .str "manual")
  let org := _name (getV p "organization")
  pyPrune [
    ("name", _stripped (getV p "name")),
    ("description", pyOr (getV p "description") (.str "")),
    ("organization", if truthy org then _stripped org else Value.null),
    ("scm_type", scm_type),
    ("scm_url", getV p "scm_url"),
    ("scm_branch", pyOr (getV p "scm_branch") (.str "main")),
    ("scm_update_on_launch", .bool (truthy (getVD p "scm_update_on_launch" (.bool true)))),
    ("allow_override", .bool (truthy (getVD p "allow_override" (.bool true)))),
    ("state", .str "present")]

/-- `normalize_inventory`. -/
def normalize_inventory (inv : Record) : Record :=
  let org := _name (getV inv "organization")
  let kind := pyOr (getV inv "kind") (.str "normal")
  pyPrune [
    ("name", _stripped (getV inv "name")),
    ("description", pyOr (getV inv "description") (.str "")),
    ("organization", if truthy org then _stripped org else Value.null),
    ("variables", pyOr (getV inv "variables") (.dict [])),
    ("kind", kind),
    ("state", .str "present")]

/-- Python iteration over a value: lists yield their elements, strings their
characters, dicts their keys; iterating numbers, booleans or `None` raises
`TypeError`, modelled as `none`.  (The falsy cases are already replaced by
an empty list via `or` before iteration in the source.) -/
def pyIter : Value → Option (List Value)
  | .list l => some l
  | .str s => some (s.data.map (fun ch => .str (String.mk [ch])))
  | .dict d => some (d.map (fun kv => .str kv.1))
  | _ => none

/-- `normalize_job_template`. -/
def normalize_job_template (t : Record) : Option Record :=
  match pyIter (pyOr (getV t "credentials") (.list [])) with
  | none => none
  | some credsSrc =>
    let org := _name (getV t "organization")
    let proj := _name (getV t "project")
    let inv := _name (getV t "inventory")
    let ee := _name (getV t "execution_environment")
    let creds := credsSrc.filterMap (fun c =>
      if truthy (_name c) then some (_stripped (_name c)) else none)
    some (pyPrune [
      ("name", _stripped (getV t "name")),
      ("description", pyOr (getV t "description") (.str "")),
      ("organization", if truthy org then _stripped org else Value.null),
      ("project", if truthy proj then _stripped proj else Value.null),
      ("inventory", if truthy inv then _stripped inv else Value.null),
      ("execution_environment", if truthy ee then _stripped ee else Value.null),
      ("job_type", pyOr (getV t "job_type") (.str "run")),
      ("playbook", getV t "playbook"),
      ("credentials", .list creds),
      ("survey_enabled", .bool (truthy (getV t "survey_enabled"))),
      ("limit", pyOr (getV t "limit") (.str "")),
      ("verbosity", pyOr (getV t "verbosity") (.int 0)),
      ("state", .str "present")])

/-- `normalize_workflow_template`. -/
def normalize_workflow_template (w : Record) : Record :=
  let org := _name (getV w "organization")
  pyPrune [
    ("name", _stripped (getV w "name")),
    ("description", pyOr (getV w "description") (.str "")),
    ("organization", if truthy org then _stripped org else Value.null),
    ("state", .str "present")]

/-- `normalize_execution_environment`. -/
def normalize_execution_environment (ee : Record) : Record :=
  let org := _name (getV ee "organization")
  pyPrune [
    ("name", _stripped (getV ee "name")),
    ("image", _stripped (getV ee "image")),
    ("organization", if truthy org then _stripped org else Value.null),
    ("pull", getVD ee "pull" (.str "missing")),
    ("state", .str "present")]

/-! Embedding of `scripts/verify_yaml.py`.  Reading the directory and the
files is I/O; the embedding takes the directory as data: whether the base
path exists, and for each present file the result of opening and
`yaml.safe_load`-ing it (a parsed value, or a parse failure caught by the
`try`).  The warning/error message strings are diagnostic output only; the
control flow and exit codes depend only on how many there are, so the
embedding counts them. -/

/-- The result of opening and parsing one present file. -/
inductive FileContent where
  | ok (v : Value)
  | bad

/-- `EXPECTED_FILES`: filename to required top-level key, in dict order. -/
def EXPECTED_FILES : List (String × String) := [
  ("controller_organizations.yml", "controller_organizations"),
  ("controller_credentials.yml", "controller_credentials"),
  ("controller_projects.yml", "controller_projects"),
  ("controller_inventories.yml", "controller_inventories"),
  ("controller_templates.yml", "controller_templates"),
  ("controller_workflows.yml", "controller_workflows"),
  ("controller_execution_environments.yml", "controller_execution_environments")]

/-- `REQUIRED_FIELDS_PER_LIST_ITEM`. -/
def REQUIRED_FIELDS_PER_LIST_ITEM : List (String × List String) := [
  ("controller_organizations", ["name"]),
  ("controller_credentials", ["name", "credential_type"]),
  ("controller_projects", ["name"]),
  ("controller_inventories", ["name"]),
  ("controller_templates", ["name", "project", "job_type"]),
  ("controller_workflows", ["name"]),
  ("controller_execution_environments", ["name", "image"])]

/-- Membership of a string among the elements of a Python list, by `==`
(a string never equals a non-string value). -/
def strMem (k : String) : List Value → Bool
  | [] => false
  | .str s :: t => s == k || strMem k t
  | _ :: t => strMem k t

/-- Contiguous-substring test on character lists (Python `in` on strings). -/
def substrB (a b : List Char) : Bool :=
  (List.range (b.length + 1)).any (fun i => ((b.drop i).take a.length) == a)

/-- Python `key in data`: key membership for dicts, element membership for
lists, substring for strings; `in` on numbers, booleans or `None` raises
`TypeError`, modelled as `none`. -/
def pyContains (data : Value) (k : String) : Option Bool :=
  match data with
  | .dict d => some (!(lookupA d k).isNone)
  | .list l => some (strMem k l)
  | .str s => some (substrB k.data s.data)
  | _ => none

/-- Python `data[key]` with a string key: dict indexing (`KeyError` when
absent); on any other container a string index raises, modelled as `none`. -/
def pyIndex (data : Value) (k : String) : Option Value :=
  match data with
  | .dict d => lookupA d k
  | _ => none

/-- `validate_top_level`: the expected key must be present and hold a list.
Returns whether the check passed; `none` when the duck-typed `in` or
indexing raises (uncaught in the source). -/
def validate_top_level (data : Value) (key : String) : Option Bool :=
  match pyContains data key with
  | none => none
  | some false => some false
  | some true =>
    match pyIndex data key with
    | none => none
    | some v => some (match v with | .list _ => true | _ => false)

/-- `data.get(topkey, [])`: `.get` on a non-dict raises `AttributeError`. -/
def pyGetD (data : Value) (k : String) (dflt : Value) : Option Value :=
  match data with
  | .dict d => some ((lookupA d k).getD dflt)
  | _ => none

/-- `obj[field] in (None, "")` or missing: one required-field error. -/
def missingField (dd : Record) (f : String) : Bool :=
  match lookupA dd f with
  | none => true
  | some .null => true
  | some (.str s) => s == ""
  | some _ => false

/-- `"state" in obj and not isinstance(obj["state"], str)`. -/
def stateTypeError (dd : Record) : Nat :=
  match lookupA dd "state" with
  | some (.str _) => 0
  | some _ => 1
  | none => 0

/-- Errors contributed by one list item: a non-mapping item is one error;
a mapping contributes one error per missing/empty required field plus the
`state` type check. -/
def itemErrors (required : List String) (obj : Value) : Nat :=
  match obj with
  | .dict dd => required.countP (fun f => missingField dd f) + stateTypeError dd
  | _ => 1

/-- `validate_list_items`: error count over all items of a kind. -/
def validate_list_items (kind : String) (items : List Value) : Nat :=
  let required := (lookupA REQUIRED_FIELDS_PER_LIST_ITEM kind).getD ["name"]
  (items.map (fun obj => itemErrors required obj)).sum

/-- One iteration of the verifier's file loop: the `(warnings, errors)`
contribution of one expected file, `none` when an uncaught exception
escapes `main`. -/
def scanFile (files : List (String × FileContent)) (fname topkey : String) :
    Option (Nat × Nat) :=
  match lookupA files fname with
  | none => some (1, 0)
  | some FileContent.bad => some (0, 1)
  | some (FileContent.ok v) =>
    let data := pyOr v (.dict [])
    match validate_top_level data topkey with
    | none => none
    | some false => some (0, 1)
    | some true =>
      match pyGetD data topkey (.list []) with
      | none => none
      | some items =>
        match items with
        | .list l => some (0, validate_list_items topkey l)
        | _ => none

/-- The verifier's accumulation over all expected files. -/
def verifyScan (files : List (String × FileContent)) : Option (Nat × Nat) :=
  EXPECTED_FILES.foldl (fun acc kv =>
    match acc with
    | none => none
    | some (w, e) =>
      match scanFile files kv.1 kv.2 with
      | none => none
      | some (w2, e2) => some (w + w2, e + e2)) (some (0, 0))

/-- `main` of `verify_yaml.py`: exit code 2 when the base path does not
exist; otherwise errors give 2, else warnings give `1 if args.strict else
0`, else 0. -/
def verifyMain (pathExists : Bool) (files : List (String × FileContent))
    (strict : Bool) : Option Nat :=
  if !pathExists then some 2
  else
    match verifyScan files with
    | none => none
    | some (w, e) =>
      some (if e > 0 then 2 else if w > 0 then (if strict then 1 else 0) else 0)

/-! Canonical-shaped records, following the spec's §3 canonical field sets:
string-typed scalar fields, reference fields resolved to name strings or
absent, `state = "present"`, and the sparse-record pruning applied.  These
builders are the spec-side shapes used to state idempotence. -/

/-- An optional (possibly omitted) field value: `None` before pruning. -/
def optStr : Option String → Value
  | some s => .str s
  | none => .null

/-- A resolved reference field is well-formed when, if present, it is a
nonempty whitespace-stripped name string. -/
def optOkB : Option String → Bool
  | none => true
  | some s => s != "" && (pyStrip s == s)

/-- The field list of a canonical-shaped project record before pruning. -/
def projFull (name desc : String) (org : Option String) (st : String)
    (u : Option String) (br : String) (upd ovr : Bool) : Record :=
  [("name", .str name),
   ("description", .str desc),
   ("organization", optStr org),
   ("scm_type", .str st),
   ("scm_url", optStr u),
   ("scm_branch", .str br),
   ("scm_update_on_launch", .bool upd),
   ("allow_override", .bool ovr),
   ("state", .str "present")]

/-- Canonical-shaped project record. -/
def mkProject (name desc : String) (org : Option String) (st : String)
    (u : Option String) (br : String) (upd ovr : Bool) : Record :=
  pyPrune (projFull name desc org st u br upd ovr)

/-- The field list of a canonical-shaped inventory record before pruning. -/
def invFull (name desc : String) (org : Option String) (vars : Record)
    (kind : String) : Record :=
  [("name", .str name),
   ("description", .str desc),
   ("organization", optStr org),
   ("variables", .dict vars),
   ("kind", .str kind),
   ("state", .str "present")]

/-- Canonical-shaped inventory record. -/
def mkInventory (name desc : String) (org : Option String) (vars : Record)
    (kind : String) : Record :=
  pyPrune (invFull name desc org vars kind)

/-- The field list of a canonical-shaped job template before pruning. -/
def tmplFull (name desc : String) (org proj inv ee : Option String)
    (jt : String) (pb : Option String) (creds : List String) (survey : Bool)
    (lim : String) (verb : Int) : Record :=
  [("name", .str name),
   ("description", .str desc),
   ("organization", optStr org),
   ("project", optStr proj),
   ("inventory", optStr inv),
   ("execution_environment", optStr ee),
   ("job_type", .str jt),
   ("playbook", optStr pb),
   ("credentials", .list (creds.map .str)),
   ("survey_enabled", .bool survey),
   ("limit", .str lim),
   ("verbosity", .int verb),
   ("state", .str "present")]

/-- Canonical-shaped job template record. -/
def mkTemplate (name desc : String) (org proj inv ee : Option String)
    (jt : String) (pb : Option String) (creds : List String) (survey : Bool)
    (lim : String) (verb : Int) : Record :=
  pyPrune (tmplFull name desc org proj inv ee jt pb creds survey lim verb)

/-- The field list of a canonical-shaped workflow template before pruning. -/
def wfFull (name desc : String) (org : Option String) : Record :=
  [("name", .str name),
   ("description", .str desc),
   ("organization", optStr org),
   ("state", .str "present")]

/-- Canonical-shaped workflow template record. -/
def mkWorkflow (name desc : String) (org : Option String) : Record :=
  pyPrune (wfFull name desc org)

/-- The field list of a canonical-shaped execution environment (pull policy
present) before pruning. -/
def eeFull (name image : String) (org : Option String) (pull : String) : Record :=
  [("name", .str name),
   ("image", .str image),
   ("organization", optStr org),
   ("pull", .str pull),
   ("state", .str "present")]

/-- Canonical-shaped execution environment record (with its pull policy
present). -/
def mkEE (name image : String) (org : Option String) (pull : String) : Record :=
  pyPrune (eeFull name image org pull)

/-- No field of a pruned record holds a null/empty value. -/
def noEmpties (r : Record) : Prop := ∀ kv ∈ r, isEmptyVal kv.2 = false

/-- A field of a record is whitespace-stripped: whenever it is present with
a string value, that string is unchanged by stripping. -/
def strippedAt (r : Record) (k : String) : Prop :=
  ∀ s, lookupA r k = some (Value.str s) → pyStrip s = s

/-! Shared helper lemmas. -/

theorem lookupA_cons {α : Type} (k1 : String) (v1 : α) (t : List (String × α)) (key : String) :
    lookupA ((k1, v1) :: t) key = if k1 = key then some v1 else lookupA t key := rfl

theorem dropWhile_idem (p : Char → Bool) (l : List Char) :
    (l.dropWhile p).dropWhile p = l.dropWhile p := by
  induction l with
  | nil => rfl
  | cons a t ih =>
    by_cases h : p a
    · simp [List.dropWhile_cons, h, ih]
    · simp [List.dropWhile_cons, h]

theorem dropWhile_head_false (p : Char → Bool) (l : List Char) (a : Char) (t : List Char)
    (h : l.dropWhile p = a :: t) : p a = false := by
  induction l with
  | nil => simp [List.dropWhile_nil] at h
  | cons b u ih =>
    rw [List.dropWhile_cons] at h
    by_cases hb : p b
    · rw [if_pos hb] at h
      exact ih h
    · rw [if_neg hb] at h
      cases h
      simpa using hb

theorem reverse_of_suffix (x y : List Char) (h : x <:+ y.reverse) : x.reverse <+: y := by
  rcases h with ⟨t, ht⟩
  refine ⟨t.reverse, ?_⟩
  have h2 := congrArg List.reverse ht
  simpa using h2

theorem stripChars_idem (l : List Char) : stripChars (stripChars l) = stripChars l := by
  unfold stripChars
  have hpre : ((l.dropWhile isPySpace).reverse.dropWhile isPySpace).reverse
      <+: l.dropWhile isPySpace :=
    reverse_of_suffix _ _ (List.dropWhile_suffix _)
  have hdrop : (((l.dropWhile isPySpace).reverse.dropWhile isPySpace).reverse).dropWhile isPySpace
      = ((l.dropWhile isPySpace).reverse.dropWhile isPySpace).reverse := by
    cases hB : ((l.dropWhile isPySpace).reverse.dropWhile isPySpace).reverse with
    | nil => rfl
    | cons a bt =>
      rw [hB] at hpre
      rcases hpre with ⟨t2, ht2⟩
      have ha : isPySpace a = false :=
        dropWhile_head_false isPySpace l a (bt ++ t2) ht2.symm
      rw [List.dropWhile_cons, ha]
      simp
  rw [hdrop, List.reverse_reverse, dropWhile_idem]

theorem pyStrip_idem (s : String) : pyStrip (pyStrip s) = pyStrip s :=
  congrArg String.mk (stripChars_idem s.data)

theorem stripped_idem (v : Value) : _stripped (_stripped v) = _stripped v := by
  cases v <;> simp [_stripped, pyStrip_idem]

theorem stripped_eq_str : ∀ (v : Value) (s : String), _stripped v = .str s → pyStrip s = s
  | .str t, s, h => by
    simp [_stripped] at h
    subst h
    exact pyStrip_idem t
  | .null, _, h => by simp [_stripped] at h
  | .bool _, _, h => by simp [_stripped] at h
  | .int _, _, h => by simp [_stripped] at h
  | .list _, _, h => by simp [_stripped] at h
  | .dict _, _, h => by simp [_stripped] at h

theorem lookupA_eq_none_of_not_mem {α : Type} (l : List (String × α)) (k : String)
    (h : k ∉ l.map Prod.fst) : lookupA l k = none := by
  induction l with
  | nil => rfl
  | cons a t ih =>
    obtain ⟨k1, v1⟩ := a
    rw [List.map_cons, List.mem_cons] at h
    push_neg at h
    rw [lookupA_cons, if_neg (fun hh => h.1 hh.symm)]
    exact ih h.2

theorem lookupA_filter_none {α : Type} (p : String × α → Bool) (l : List (String × α))
    (k : String) (h : lookupA l k = none) : lookupA (l.filter p) k = none := by
  induction l with
  | nil => rfl
  | cons a t ih =>
    obtain ⟨k1, v1⟩ := a
    rw [lookupA_cons] at h
    by_cases hk : k1 = k
    · rw [if_pos hk] at h
      exact absurd h (by simp)
    · rw [if_neg hk] at h
      rw [List.filter_cons]
      by_cases hp : p (k1, v1)
      · rw [if_pos hp, lookupA_cons, if_neg hk]
        exact ih h
      · rw [if_neg hp]
        exact ih h

theorem lookupA_pyPrune (l : Record) (k : String) (h : (l.map Prod.fst).Nodup) :
    lookupA (pyPrune l) k =
      (lookupA l k).bind (fun v => if isEmptyVal v then none else some v) := by
  induction l with
  | nil => rfl
  | cons a t ih =>
    obtain ⟨k1, v1⟩ := a
    rw [List.map_cons, List.nodup_cons] at h
    obtain ⟨hnm, hnd⟩ := h
    by_cases hk : k1 = k
    · subst hk
      by_cases he : isEmptyVal v1
      · have ht : lookupA t k1 = none :=
          lookupA_eq_none_of_not_mem t k1 hnm
        have hp : lookupA (pyPrune t) k1 = none := lookupA_filter_none _ t k1 ht
        simpa [pyPrune, List.filter_cons, he, lookupA_cons] using hp
      · simp [pyPrune, List.filter_cons, he, lookupA_cons]
    · by_cases he : isEmptyVal v1
      · simpa [pyPrune, List.filter_cons, he, lookupA_cons, hk] using ih hnd
      · simpa [pyPrune, List.filter_cons, he, lookupA_cons, hk] using ih hnd

theorem getVD_pyPrune (l : Record) (k : String) (dflt : Value)
    (h : (l.map Prod.fst).Nodup) :
    getVD (pyPrune l) k dflt =
      match lookupA l k with
      | none => dflt
      | some v => if isEmptyVal v then dflt else v := by
  rw [getVD, lookupA_pyPrune l k h]
  cases hl : lookupA l k with
  | none => rfl
  | some v =>
    by_cases he : isEmptyVal v <;> simp [he]

theorem getV_pyPrune (l : Record) (k : String) (h : (l.map Prod.fst).Nodup) :
    getV (pyPrune l) k =
      match lookupA l k with
      | none => Value.null
      | some v => if isEmptyVal v then Value.null else v :=
  getVD_pyPrune l k Value.null h

theorem noEmpties_pyPrune (l : Record) : noEmpties (pyPrune l) := by
  intro kv hm
  have := List.of_mem_filter hm
  simpa using this

theorem lookupA_popKey_self (d : Record) (k : String) : lookupA (popKey d k) k = none := by
  induction d with
  | nil => rfl
  | cons a t ih =>
    obtain ⟨k1, v1⟩ := a
    rw [popKey, List.filter_cons]
    by_cases hk : k1 = k
    · simpa [hk, popKey] using ih
    · simpa [hk, popKey, lookupA_cons] using ih

theorem lookupA_foldl_popKey_none (keys : List String) (d : Record) (k : String)
    (h : lookupA d k = none) : lookupA (keys.foldl popKey d) k = none := by
  induction keys generalizing d with
  | nil => exact h
  | cons a t ih =>
    rw [List.foldl_cons]
    exact ih (popKey d a) (lookupA_filter_none _ d k h)

theorem lookupA_foldl_popKey (keys : List String) (d : Record) (k : String)
    (hk : k ∈ keys) : lookupA (keys.foldl popKey d) k = none := by
  induction keys generalizing d with
  | nil => cases hk
  | cons a t ih =>
    rw [List.foldl_cons]
    rcases List.mem_cons.mp hk with h1 | h2
    · subst h1
      exact lookupA_foldl_popKey_none t (popKey d k) k (lookupA_popKey_self d k)
    · exact ih (popKey d a) h2

theorem resolveCreds_map (l : List String) (h : ∀ s ∈ l, s ≠ "" ∧ pyStrip s = s) :
    (l.map Value.str).filterMap (fun c =>
      if truthy (_name c) then some (_stripped (_name c)) else none) = l.map Value.str := by
  induction l with
  | nil => rfl
  | cons a t ih =>
    obtain ⟨ha1, ha2⟩ := h a (List.mem_cons_self a t)
    rw [List.map_cons, List.filterMap_cons]
    have htr : truthy (_name (Value.str a)) = true := by
      simp [_name, truthy, ha1]
    rw [htr]
    simp only [if_true]
    rw [show _stripped (_name (Value.str a)) = Value.str a from by
      simp [_name, _stripped, ha2]]
    rw [ih (fun s hs => h s (List.mem_cons_of_mem a hs))]

theorem isEmptyVal_eq_false_of_truthy (v : Value) (h : truthy v = true) :
    isEmptyVal v = false := by
  cases v with
  | null => simp [truthy] at h
  | bool b => rfl
  | int n => rfl
  | str s => rfl
  | list l =>
    cases l with
    | nil => simp [truthy] at h
    | cons a t => rfl
  | dict d =>
    cases d with
    | nil => simp [truthy] at h
    | cons a t => rfl

/-- Claim C1: for every raw credential record, the record returned by
`normalize_credential` contains none of the keys password, secret,
ssh_key_data, ssh_key_unlock, token, client_secret, become_password within
its `inputs` mapping, even if those keys were present in the raw record's
`inputs`. -/
theorem c1_sensitive_inputs_removed (c rec inp : Record)
    (h1 : normalize_credential c = some rec)
    (h2 : lookupA rec "inputs" = some (Value.dict inp))
    (k : String) (hk : k ∈ SENSITIVE_KEYS) :
    lookupA inp k = none := by
  cases hct : pyDict (pyOr (getV c "credential_type") (Value.dict [])) with
  | none => simp [normalize_credential, hct] at h1
  | some ct =>
  cases hcn : credtypeGet (pyOr (getV ct "name") (getV c "kind")) with
  | none => simp [normalize_credential, hct, hcn] at h1
  | some ctName =>
  cases hin : pyDict (pyOr (getV c "inputs") (Value.dict [])) with
  | none => simp [normalize_credential, hct, hcn, hin] at h1
  | some inputs0 =>
  simp only [normalize_credential, hct, hcn, hin] at h1
  injection h1 with h1
  subst h1
  rw [lookupA_pyPrune _ _ (by simp)] at h2
  by_cases hF : truthy (Value.dict (SENSITIVE_KEYS.foldl popKey inputs0))
  · simp [lookupA_cons, pyOr, hF, isEmptyVal_eq_false_of_truthy _ hF] at h2
    rw [← h2]
    exact lookupA_foldl_popKey SENSITIVE_KEYS inputs0 k hk
  · simp [lookupA_cons, pyOr, hF, isEmptyVal] at h2

/-- Witness for C1 at a concrete credential whose raw inputs hold a
password next to a host. -/
theorem c1_witness :
    normalize_credential
      [("name", Value.str "c"),
       ("credential_type", Value.dict [("name", Value.str "Machine")]),
       ("inputs", Value.dict [("password", Value.str "x"), ("host", Value.str "h")])]
      = some [("name", Value.str "c"), ("description", Value.str ""),
              ("credential_type", Value.str "Machine"),
              ("inputs", Value.dict [("host", Value.str "h")]),
              ("state", Value.str "present")]
  ∧ lookupA [("host", Value.str "h")] "password" = none :=
  ⟨rfl, c1_sensitive_inputs_removed
    [("name", Value.str "c"),
     ("credential_type", Value.dict [("name", Value.str "Machine")]),
     ("inputs", Value.dict [("password", Value.str "x"), ("host", Value.str "h")])]
    [("name", Value.str "c"), ("description", Value.str ""),
     ("credential_type", Value.str "Machine"),
     ("inputs", Value.dict [("host", Value.str "h")]),
     ("state", Value.str "present")]
    [("host", Value.str "h")] rfl rfl "password" (by decide)⟩

/-- Claim C2 counterexample: `normalize_org` has no pruning step, so the
organization normalizer applied to the empty raw record returns a record
whose `name` field is null — a canonical record with a null-valued field. -/
theorem c2_counterexample :
    normalize_org [] = [("name", Value.null), ("state", Value.str "present")]
  ∧ lookupA (normalize_org []) "name" = some Value.null :=
  ⟨rfl, rfl⟩

/-- Claim C2 (amended): for the credential, project, inventory, job
template, workflow template and execution environment kinds, the returned
canonical record contains no field whose value is null, an empty mapping or
an empty sequence; `normalize_org` alone performs no such pruning. -/
theorem c2_no_empty_fields_amended :
    (∀ c rec, normalize_credential c = some rec → noEmpties rec)
  ∧ (∀ p, noEmpties (normalize_project p))
  ∧ (∀ i, noEmpties (normalize_inventory i))
  ∧ (∀ t rec, normalize_job_template t = some rec → noEmpties rec)
  ∧ (∀ w, noEmpties (normalize_workflow_template w))
  ∧ (∀ e, noEmpties (normalize_execution_environment e)) := by
  refine ⟨?_, ?_, ?_, ?_, ?_, ?_⟩
  · intro c rec h1
    cases hct : pyDict (pyOr (getV c "credential_type") (Value.dict [])) with
    | none => simp [normalize_credential, hct] at h1
    | some ct =>
    cases hcn : credtypeGet (pyOr (getV ct "name") (getV c "kind")) with
    | none => simp [normalize_credential, hct, hcn] at h1
    | some ctName =>
    cases hin : pyDict (pyOr (getV c "inputs") (Value.dict [])) with
    | none => simp [normalize_credential, hct, hcn, hin] at h1
    | some inputs0 =>
    simp only [normalize_credential, hct, hcn, hin] at h1
    injection h1 with h1
    subst h1
    exact noEmpties_pyPrune _
  · intro p
    exact noEmpties_pyPrune _
  · intro i
    exact noEmpties_pyPrune _
  · intro t rec h1
    cases hcs : pyIter (pyOr (getV t "credentials") (Value.list [])) with
    | none => simp [normalize_job_template, hcs] at h1
    | some credsSrc =>
    simp only [normalize_job_template, hcs] at h1
    injection h1 with h1
    subst h1
    exact noEmpties_pyPrune _
  · intro w
    exact noEmpties_pyPrune _
  · intro e
    exact noEmpties_pyPrune _

/-- Witness for C2's amended theorem at a concrete credential. -/
theorem c2_witness :
    normalize_credential [("name", Value.str "c")]
      = some [("name", Value.str "c"), ("description", Value.str ""),
              ("state", Value.str "present")]
  ∧ noEmpties [("name", Value.str "c"), ("description", Value.str ""),
               ("state", Value.str "present")] :=
  ⟨rfl, c2_no_empty_fields_amended.1 [("name", Value.str "c")]
    [("name", Value.str "c"), ("description", Value.str ""),
     ("state", Value.str "present")] rfl⟩

/-- Claim C3: on an existing directory holding none of the seven expected
files the verifier accumulates seven warnings and no errors, then exits 0
without strict mode — but exits 1, not 2, with strict mode: `main` ends
with `return 1 if args.strict else 0`.  This contradicts the claim and the
script's own documentation (`--strict`: "Treat warnings as errors"; exit
code 2: "Errors encountered"). -/
theorem c3_strict_warnings_exit_code :
    verifyScan [] = some (7, 0)
  ∧ verifyMain true [] false = some 0
  ∧ verifyMain true [] true = some 1 :=
  ⟨rfl, rfl, rfl⟩

/-- Claim C5 counterexample: normalizing the raw project record with name
" Web " and the git scm_url keeps `description` (as the empty string) and
keeps `scm_url` — the claim's expected record omits both. -/
theorem c5_counterexample :
    lookupA (normalize_project
      [("name", Value.str " Web "), ("scm_url", Value.str "https://x/y.git")])
      "description" = some (Value.str "")
  ∧ lookupA (normalize_project
      [("name", Value.str " Web "), ("scm_url", Value.str "https://x/y.git")])
      "scm_url" = some (Value.str "https://x/y.git") :=
  ⟨rfl, rfl⟩

/-- Claim C5 (amended): the raw project record normalizes to exactly the
record with name "Web", description "" (the empty-string default survives
pruning), scm_type "git", the scm_url retained, scm_branch "main", both
booleans true, and state "present". -/
theorem c5_project_end_to_end :
    normalize_project [("name", Value.str " Web "), ("scm_url", Value.str "https://x/y.git")]
      = [("name", Value.str "Web"), ("description", Value.str ""),
         ("scm_type", Value.str "git"), ("scm_url", Value.str "https://x/y.git"),
         ("scm_branch", Value.str "main"), ("scm_update_on_launch", Value.bool true),
         ("allow_override", Value.bool true), ("state", Value.str "present")] := rfl

/-- Claim C7: `_name` is a total function implementing the resolver
contract — a mapping yields the value of its `name` key (`None` when
absent), a plain string yields itself, and every other value yields
`None`. -/
theorem c7_name_resolver_contract :
    (∀ d v, lookupA d "name" = some v → _name (Value.dict d) = v)
  ∧ (∀ d, lookupA d "name" = none → _name (Value.dict d) = Value.null)
  ∧ (∀ s, _name (Value.str s) = Value.str s)
  ∧ (∀ v, (∀ d, v ≠ Value.dict d) → (∀ s, v ≠ Value.str s) → _name v = Value.null) := by
  refine ⟨?_, ?_, ?_, ?_⟩
  · intro d v h
    simp [_name, getV, getVD, h]
  · intro d h
    simp [_name, getV, getVD, h]
  · intro s
    rfl
  · intro v hd hs
    cases v with
    | null => rfl
    | bool b => rfl
    | int n => rfl
    | str s => exact absurd rfl (hs s)
    | list l => rfl
    | dict d => exact absurd rfl (hd d)

/-- Witness for C7 at concrete reference values. -/
theorem c7_witness :
    _name (Value.dict [("name", Value.str "Prod")]) = Value.str "Prod"
  ∧ _name (Value.dict [("id", Value.int 7)]) = Value.null
  ∧ _name (Value.str "Prod") = Value.str "Prod"
  ∧ _name Value.null = Value.null :=
  ⟨c7_name_resolver_contract.1 [("name", Value.str "Prod")] (Value.str "Prod") rfl,
   c7_name_resolver_contract.2.1 [("id", Value.int 7)] rfl,
   c7_name_resolver_contract.2.2.1 "Prod",
   c7_name_resolver_contract.2.2.2 Value.null
     (fun _ h => Value.noConfusion h) (fun _ h => Value.noConfusion h)⟩

/-- Claim C10: the pruning step removes exactly the fields whose value
equals None, the empty mapping or the empty sequence — an empty-string
value is retained — and a raw credential without a description therefore
normalizes to a canonical record containing `description` = "". -/
theorem c10_prune_exact_empty_string_kept :
    (∀ (l : Record) (k : String) (v : Value), (l.map Prod.fst).Nodup →
      (lookupA (pyPrune l) k = some v ↔ lookupA l k = some v ∧ isEmptyVal v = false))
  ∧ (∀ c rec, lookupA c "description" = none → normalize_credential c = some rec →
      lookupA rec "description" = some (Value.str "")) := by
  constructor
  · intro l k v h
    rw [lookupA_pyPrune l k h]
    cases hl : lookupA l k with
    | none => simp
    | some w =>
      show (if isEmptyVal w then none else some w) = some v ↔
        some w = some v ∧ isEmptyVal v = false
      by_cases he : isEmptyVal w
      · rw [if_pos he]
        constructor
        · intro hx
          exact absurd hx (by simp)
        · rintro ⟨hw, hv⟩
          injection hw with hw
          subst hw
          rw [he] at hv
          exact absurd hv (by simp)
      · rw [if_neg he]
        constructor
        · intro hx
          injection hx with hx
          subst hx
          exact ⟨rfl, by simpa using he⟩
        · rintro ⟨hw, _⟩
          exact hw
  · intro c rec hd h1
    cases hct : pyDict (pyOr (getV c "credential_type") (Value.dict [])) with
    | none => simp [normalize_credential, hct] at h1
    | some ct =>
    cases hcn : credtypeGet (pyOr (getV ct "name") (getV c "kind")) with
    | none => simp [normalize_credential, hct, hcn] at h1
    | some ctName =>
    cases hin : pyDict (pyOr (getV c "inputs") (Value.dict [])) with
    | none => simp [normalize_credential, hct, hcn, hin] at h1
    | some inputs0 =>
    simp only [normalize_credential, hct, hcn, hin] at h1
    injection h1 with h1
    subst h1
    rw [lookupA_pyPrune _ _ (by simp)]
    have hdnull : getV c "description" = Value.null := by simp [getV, getVD, hd]
    simp [lookupA_cons, hdnull, pyOr, truthy, isEmptyVal]

/-- Witness for C10 at a concrete credential with no description, and at a
concrete record with an empty-string field surviving the pruning. -/
theorem c10_witness :
    normalize_credential [("name", Value.str "d")]
      = some [("name", Value.str "d"), ("description", Value.str ""),
              ("state", Value.str "present")]
  ∧ lookupA [("name", Value.str "d"), ("description", Value.str ""),
             ("state", Value.str "present")] "description" = some (Value.str "")
  ∧ lookupA (pyPrune [("a", Value.str "")]) "a" = some (Value.str "") :=
  ⟨rfl,
   c10_prune_exact_empty_string_kept.2 [("name", Value.str "d")]
     [("name", Value.str "d"), ("description", Value.str ""),
      ("state", Value.str "present")] rfl rfl,
   (c10_prune_exact_empty_string_kept.1 [("a", Value.str "")] "a" (Value.str "")
     (by simp)).mpr ⟨rfl, rfl⟩⟩

theorem lookupA_selfmap (m : List (String × String))
    (hm : ∀ kv ∈ m, kv.2 = kv.1) (s : String) :
    (lookupA m s).getD s = s := by
  induction m with
  | nil => rfl
  | cons a t ih =>
    obtain ⟨k1, v1⟩ := a
    have h1 : v1 = k1 := hm (k1, v1) (List.mem_cons_self _ _)
    rw [lookupA_cons]
    by_cases hk : k1 = s
    · rw [if_pos hk]
      simp [h1, hk]
    · rw [if_neg hk]
      exact ih (fun kv hkv => hm kv (List.mem_cons_of_mem _ hkv))

theorem credtypeGet_id (v w : Value) (h : credtypeGet v = some w) : w = v := by
  cases v with
  | str s =>
    simp [credtypeGet] at h
    rw [← h]
    rw [lookupA_selfmap CREDTYPE_MAP (by decide) s]
  | list l => simp [credtypeGet] at h
  | dict d => simp [credtypeGet] at h
  | null =>
    simp [credtypeGet] at h
    exact h.symm
  | bool b =>
    simp [credtypeGet] at h
    exact h.symm
  | int n =>
    simp [credtypeGet] at h
    exact h.symm

/-- Claim C9: the credential type table maps every key it contains to
itself, the mapping step is the identity wherever it is defined (it raises
only on unhashable labels), and the canonical `credential_type` equals the
label derived from the nested credential_type object's name with the `kind`
fallback — mapped or not — present whenever that label is not null/empty. -/
theorem c9_credtype_identity :
    (∀ kv ∈ CREDTYPE_MAP, kv.2 = kv.1)
  ∧ (∀ v w, credtypeGet v = some w → w = v)
  ∧ (∀ c d rec, pyOr (getV c "credential_type") (Value.dict []) = Value.dict d →
      normalize_credential c = some rec →
      lookupA rec "credential_type" =
        (if isEmptyVal (pyOr (getV d "name") (getV c "kind")) then none
         else some (pyOr (getV d "name") (getV c "kind")))) := by
  refine ⟨by decide, credtypeGet_id, ?_⟩
  intro c d rec hd h1
  have hct : pyDict (pyOr (getV c "credential_type") (Value.dict [])) = some d := by
    rw [hd]
    rfl
  cases hcn : credtypeGet (pyOr (getV d "name") (getV c "kind")) with
  | none => simp [normalize_credential, hct, hcn] at h1
  | some ctName =>
  cases hin : pyDict (pyOr (getV c "inputs") (Value.dict [])) with
  | none => simp [normalize_credential, hct, hcn, hin] at h1
  | some inputs0 =>
  simp only [normalize_credential, hct, hcn, hin] at h1
  injection h1 with h1
  subst h1
  have hid : ctName = pyOr (getV d "name") (getV c "kind") := credtypeGet_id _ _ hcn
  subst hid
  rw [lookupA_pyPrune _ _ (by simp)]
  simp [lookupA_cons]

/-- Witness for C9 at a concrete credential with a label absent from the
table: the label passes through verbatim. -/
theorem c9_witness :
    normalize_credential [("name", Value.str "c"),
      ("credential_type", Value.dict [("name", Value.str "Custom Type")])]
      = some [("name", Value.str "c"), ("description", Value.str ""),
              ("credential_type", Value.str "Custom Type"),
              ("state", Value.str "present")]
  ∧ lookupA [("name", Value.str "c"), ("description", Value.str ""),
             ("credential_type", Value.str "Custom Type"),
             ("state", Value.str "present")] "credential_type"
      = some (Value.str "Custom Type") := by
  refine ⟨rfl, ?_⟩
  have h := c9_credtype_identity.2.2
    [("name", Value.str "c"),
     ("credential_type", Value.dict [("name", Value.str "Custom Type")])]
    [("name", Value.str "Custom Type")]
    [("name", Value.str "c"), ("description", Value.str ""),
     ("credential_type", Value.str "Custom Type"), ("state", Value.str "present")]
    rfl rfl
  exact h

/-- Claim C8 counterexample: a credentials entry resolving to the empty
string — a non-null result — is dropped: the comprehension filters by
truthiness, and the resulting empty list is then pruned away entirely, so
the canonical record carries no credentials field. -/
theorem c8_counterexample :
    _name (Value.dict [("name", Value.str "")]) = Value.str ""
  ∧ normalize_job_template
      [("name", Value.str "t"),
       ("credentials", Value.list [Value.dict [("name", Value.str "")]])]
      = some [("name", Value.str "t"), ("description", Value.str ""),
              ("job_type", Value.str "run"), ("survey_enabled", Value.bool false),
              ("limit", Value.str ""), ("verbosity", Value.int 0),
              ("state", Value.str "present")]
  ∧ lookupA [("name", Value.str "t"), ("description", Value.str ""),
             ("job_type", Value.str "run"), ("survey_enabled", Value.bool false),
             ("limit", Value.str ""), ("verbosity", Value.int 0),
             ("state", Value.str "present")] "credentials" = none :=
  ⟨rfl, rfl, rfl⟩

/-- Claim C8 (amended): the canonical credentials field is obtained from
the raw credentials list by resolving each entry's name and keeping, in the
original order, the stripped resolved name of exactly those entries whose
resolved name is truthy (entries resolving to null, and also to falsy
non-null values such as "", are silently dropped); the list appears in the
canonical record only when it is nonempty. -/
theorem c8_credentials_resolution (t : Record) (entries : List Value) (rec : Record)
    (h1 : getV t "credentials" = Value.list entries)
    (h2 : normalize_job_template t = some rec) :
    lookupA rec "credentials" =
      (if (entries.filterMap (fun c =>
            if truthy (_name c) then some (_stripped (_name c)) else none)).isEmpty
       then none
       else some (Value.list (entries.filterMap (fun c =>
            if truthy (_name c) then some (_stripped (_name c)) else none)))) := by
  have hor : pyOr (getV t "credentials") (Value.list []) = Value.list entries := by
    rw [h1]
    cases entries with
    | nil => rfl
    | cons a l => rfl
  have hit : pyIter (pyOr (getV t "credentials") (Value.list [])) = some entries := by
    rw [hor]
    rfl
  simp only [normalize_job_template, hit] at h2
  injection h2 with h2
  subst h2
  rw [lookupA_pyPrune _ _ (by simp)]
  cases hcr : entries.filterMap (fun c =>
      if truthy (_name c) then some (_stripped (_name c)) else none) with
  | nil => simp [lookupA_cons, hcr, isEmptyVal]
  | cons a l => simp [lookupA_cons, hcr, isEmptyVal]

/-- Witness for C8 at the spec's end-to-end example: the nested-name entry
resolves, the id-only entry is dropped. -/
theorem c8_witness :
    normalize_job_template
      [("name", Value.str "T"),
       ("credentials", Value.list
         [Value.dict [("name", Value.str "Vault Cred")], Value.dict [("id", Value.int 7)]])]
      = some [("name", Value.str "T"), ("description", Value.str ""),
              ("job_type", Value.str "run"),
              ("credentials", Value.list [Value.str "Vault Cred"]),
              ("survey_enabled", Value.bool false), ("limit", Value.str ""),
              ("verbosity", Value.int 0), ("state", Value.str "present")]
  ∧ lookupA [("name", Value.str "T"), ("description", Value.str ""),
             ("job_type", Value.str "run"),
             ("credentials", Value.list [Value.str "Vault Cred"]),
             ("survey_enabled", Value.bool false), ("limit", Value.str ""),
             ("verbosity", Value.int 0), ("state", Value.str "present")]
      "credentials" = some (Value.list [Value.str "Vault Cred"]) := by
  refine ⟨rfl, ?_⟩
  have h := c8_credentials_resolution
    [("name", Value.str "T"),
     ("credentials", Value.list
       [Value.dict [("name", Value.str "Vault Cred")], Value.dict [("id", Value.int 7)]])]
    [Value.dict [("name", Value.str "Vault Cred")], Value.dict [("id", Value.int 7)]]
    [("name", Value.str "T"), ("description", Value.str ""),
     ("job_type", Value.str "run"),
     ("credentials", Value.list [Value.str "Vault Cred"]),
     ("survey_enabled", Value.bool false), ("limit", Value.str ""),
     ("verbosity", Value.int 0), ("state", Value.str "present")]
    rfl rfl
  exact h

theorem emptyFilter_eq_some {w v : Value}
    (h : (if isEmptyVal w then none else some w) = some v) : w = v := by
  by_cases he : isEmptyVal w
  · rw [if_pos he] at h
    exact absurd h (by simp)
  · rw [if_neg he] at h
    injection h

theorem strippedAt_pyPrune_of (l : Record) (k : String) (w : Value)
    (hnd : (l.map Prod.fst).Nodup)
    (hl : lookupA l k = some w)
    (hw : ∀ s, w = Value.str s → pyStrip s = s) :
    strippedAt (pyPrune l) k := by
  intro s h
  rw [lookupA_pyPrune l k hnd, hl] at h
  exact hw s (emptyFilter_eq_some h)

theorem stripped_or_null (org : Value) :
    ∀ s, (if truthy org then _stripped org else Value.null) = Value.str s → pyStrip s = s := by
  intro s h
  by_cases ht : truthy org
  · rw [if_pos ht] at h
    exact stripped_eq_str _ _ h
  · rw [if_neg ht] at h
    exact absurd h (by simp)

/-- Claim C6 counterexample: `normalize_project` writes the raw description
verbatim, whitespace included — a string-valued canonical field that is not
stripped. -/
theorem c6_counterexample :
    lookupA (normalize_project [("name", Value.str "a"), ("description", Value.str " hi ")])
      "description" = some (Value.str " hi ")
  ∧ pyStrip " hi " ≠ " hi " :=
  ⟨rfl, by decide⟩

/-- Claim C6 (amended): only the `name` fields, the resolved reference
fields (organization, project, inventory, execution_environment and each
credentials entry) and the execution environment `image` are
whitespace-stripped before being written; the remaining string-valued
fields — description among them — are written verbatim. -/
theorem c6_stripping_amended :
    (∀ o, strippedAt (normalize_org o) "name")
  ∧ (∀ c rec, normalize_credential c = some rec →
       strippedAt rec "name" ∧ strippedAt rec "organization")
  ∧ (∀ p, strippedAt (normalize_project p) "name"
       ∧ strippedAt (normalize_project p) "organization")
  ∧ (∀ i, strippedAt (normalize_inventory i) "name"
       ∧ strippedAt (normalize_inventory i) "organization")
  ∧ (∀ t rec, normalize_job_template t = some rec →
       strippedAt rec "name" ∧ strippedAt rec "organization"
       ∧ strippedAt rec "project" ∧ strippedAt rec "inventory"
       ∧ strippedAt rec "execution_environment"
       ∧ (∀ l, lookupA rec "credentials" = some (Value.list l) →
            ∀ v ∈ l, ∀ s, v = Value.str s → pyStrip s = s))
  ∧ (∀ w, strippedAt (normalize_workflow_template w) "name"
       ∧ strippedAt (normalize_workflow_template w) "organization")
  ∧ (∀ e, strippedAt (normalize_execution_environment e) "name"
       ∧ strippedAt (normalize_execution_environment e) "image"
       ∧ strippedAt (normalize_execution_environment e) "organization")
  ∧ (∀ p v, lookupA p "description" = some v → truthy v = true →
       lookupA (normalize_project p) "description" = some v) := by
  refine ⟨?_, ?_, ?_, ?_, ?_, ?_, ?_, ?_⟩
  · intro o s h
    rw [show lookupA (normalize_org o) "name" = some (_stripped (getV o "name")) from rfl] at h
    injection h with h
    exact stripped_eq_str _ _ h
  · intro c rec h1
    cases hct : pyDict (pyOr (getV c "credential_type") (Value.dict [])) with
    | none => simp [normalize_credential, hct] at h1
    | some ct =>
    cases hcn : credtypeGet (pyOr (getV ct "name") (getV c "kind")) with
    | none => simp [normalize_credential, hct, hcn] at h1
    | some ctName =>
    cases hin : pyDict (pyOr (getV c "inputs") (Value.dict [])) with
    | none => simp [normalize_credential, hct, hcn, hin] at h1
    | some inputs0 =>
    simp only [normalize_credential, hct, hcn, hin] at h1
    injection h1 with h1
    subst h1
    constructor
    · exact strippedAt_pyPrune_of _ _ _ (by simp) rfl
        (fun s hs => stripped_eq_str _ s hs)
    · exact strippedAt_pyPrune_of _ _ _ (by simp) rfl (stripped_or_null _)
  · intro p
    constructor
    · exact strippedAt_pyPrune_of _ _ _ (by simp) rfl
        (fun s hs => stripped_eq_str _ s hs)
    · exact strippedAt_pyPrune_of _ _ _ (by simp) rfl (stripped_or_null _)
  · intro i
    constructor
    · exact strippedAt_pyPrune_of _ _ _ (by simp) rfl
        (fun s hs => stripped_eq_str _ s hs)
    · exact strippedAt_pyPrune_of _ _ _ (by simp) rfl (stripped_or_null _)
  · intro t rec h1
    cases hcs : pyIter (pyOr (getV t "credentials") (Value.list [])) with
    | none => simp [normalize_job_template, hcs] at h1
    | some credsSrc =>
    simp only [normalize_job_template, hcs] at h1
    injection h1 with h1
    subst h1
    refine ⟨?_, ?_, ?_, ?_, ?_, ?_⟩
    · exact strippedAt_pyPrune_of _ _ _ (by simp) rfl
        (fun s hs => stripped_eq_str _ s hs)
    · exact strippedAt_pyPrune_of _ _ _ (by simp) rfl (stripped_or_null _)
    · exact strippedAt_pyPrune_of _ _ _ (by simp) rfl (stripped_or_null _)
    · exact strippedAt_pyPrune_of _ _ _ (by simp) rfl (stripped_or_null _)
    · exact strippedAt_pyPrune_of _ _ _ (by simp) rfl (stripped_or_null _)
    · intro l hl v hv s hs
      rw [lookupA_pyPrune _ _ (by simp)] at hl
      have hlc := emptyFilter_eq_some hl
      injection hlc with hlc
      rw [← hlc] at hv
      obtain ⟨cc, hcmem, hcc⟩ := List.mem_filterMap.mp hv
      by_cases ht : truthy (_name cc)
      · rw [if_pos ht] at hcc
        injection hcc with hcc
        rw [hs] at hcc
        exact stripped_eq_str _ _ hcc
      · rw [if_neg ht] at hcc
        exact absurd hcc (by simp)
  · intro w
    constructor
    · exact strippedAt_pyPrune_of _ _ _ (by simp) rfl
        (fun s hs => stripped_eq_str _ s hs)
    · exact strippedAt_pyPrune_of _ _ _ (by simp) rfl (stripped_or_null _)
  · intro e
    refine ⟨?_, ?_, ?_⟩
    · exact strippedAt_pyPrune_of _ _ _ (by simp) rfl
        (fun s hs => stripped_eq_str _ s hs)
    · exact strippedAt_pyPrune_of _ _ _ (by simp) rfl
        (fun s hs => stripped_eq_str _ s hs)
    · exact strippedAt_pyPrune_of _ _ _ (by simp) rfl (stripped_or_null _)
  · intro p v hd ht
    have hgv : getV p "description" = v := by simp [getV, getVD, hd]
    simp only [normalize_project]
    rw [lookupA_pyPrune _ _ (by simp)]
    simp [lookupA_cons, hgv, pyOr, ht, isEmptyVal_eq_false_of_truthy v ht]

/-- Witness for C6's amended theorem: the project name is stripped. -/
theorem c6_witness :
    lookupA (normalize_project [("name", Value.str " A ")]) "name" = some (Value.str "A")
  ∧ pyStrip "A" = "A" :=
  ⟨rfl, (c6_stripping_amended.2.2.1 [("name", Value.str " A ")]).1 "A" rfl⟩

theorem optOk_some (s : String) (h : optOkB (some s) = true) : s ≠ "" ∧ pyStrip s = s := by
  simp [optOkB] at h
  exact h

theorem optRef_roundtrip (org : Option String) (h : optOkB org = true) :
    (if truthy (_name (optStr org)) then _stripped (_name (optStr org)) else Value.null)
      = optStr org := by
  cases org with
  | none => rfl
  | some s =>
    obtain ⟨h1, h2⟩ := optOk_some s h
    simp [optStr, _name, truthy, _stripped, h1, h2]

theorem bool_truthy_id (b : Bool) : Value.bool (truthy (Value.bool b)) = Value.bool b := by
  cases b <;> rfl

/-- Claim C4 counterexample: the canonical execution environment produced
from a raw record with a null pull policy omits `pull`; a second
application of `normalize_execution_environment` re-adds `pull` =
"missing", so the normalizer is not idempotent on its own output. -/
theorem c4_counterexample :
    normalize_execution_environment
      [("name", Value.str "a"), ("image", Value.str "i"), ("pull", Value.null)]
      = [("name", Value.str "a"), ("image", Value.str "i"), ("state", Value.str "present")]
  ∧ lookupA [("name", Value.str "a"), ("image", Value.str "i"), ("state", Value.str "present")]
      "pull" = none
  ∧ lookupA (normalize_execution_environment
      [("name", Value.str "a"), ("image", Value.str "i"), ("state", Value.str "present")])
      "pull" = some (Value.str "missing") :=
  ⟨rfl, rfl, rfl⟩

/-- Claim C4 (amended): idempotence holds for the organization normalizer on
every record, and for the project, inventory, job template and workflow
normalizers on canonical-shaped records; it fails for the execution
environment normalizer exactly when the canonical record lost its `pull`
field to pruning (with `pull` present, idempotence holds), and re-running
`normalize_credential` on a canonical record raises a type error on its
string-valued `credential_type`. -/
theorem c4_idempotence_amended :
    (∀ r, normalize_org (normalize_org r) = normalize_org r)
  ∧ (∀ name desc org st u br b1 b2, pyStrip name = name → optOkB org = true →
      st ≠ "" → br ≠ "" →
      normalize_project (mkProject name desc org st u br b1 b2)
        = mkProject name desc org st u br b1 b2)
  ∧ (∀ name desc org vars kind, pyStrip name = name → optOkB org = true →
      kind ≠ "" →
      normalize_inventory (mkInventory name desc org vars kind)
        = mkInventory name desc org vars kind)
  ∧ (∀ name desc org proj inv ee jt pb creds survey lim verb,
      pyStrip name = name → optOkB org = true → optOkB proj = true →
      optOkB inv = true → optOkB ee = true → jt ≠ "" →
      (∀ s ∈ creds, s ≠ "" ∧ pyStrip s = s) →
      normalize_job_template (mkTemplate name desc org proj inv ee jt pb creds survey lim verb)
        = some (mkTemplate name desc org proj inv ee jt pb creds survey lim verb))
  ∧ (∀ name desc org, pyStrip name = name → optOkB org = true →
      normalize_workflow_template (mkWorkflow name desc org) = mkWorkflow name desc org)
  ∧ (∀ name image org pull, pyStrip name = name → pyStrip image = image →
      optOkB org = true →
      normalize_execution_environment (mkEE name image org pull) = mkEE name image org pull)
  ∧ (∀ c s, s ≠ "" → getV c "credential_type" = Value.str s →
      normalize_credential c = none) := by
  refine ⟨?_, ?_, ?_, ?_, ?_, ?_, ?_⟩
  · intro r
    show [("name", _stripped (getV (normalize_org r) "name")), ("state", Value.str "present")]
      = normalize_org r
    rw [show getV (normalize_org r) "name" = _stripped (getV r "name") from rfl,
        stripped_idem]
    rfl
  · intro name desc org st u br b1 b2 hn ho hst hbr
    have hnd : ((projFull name desc org st u br b1 b2).map Prod.fst).Nodup := by
      simp [projFull]
    have g1 : getV (mkProject name desc org st u br b1 b2) "name" = Value.str name := by
      rw [mkProject, getV_pyPrune _ _ hnd]
      rfl
    have g2 : getV (mkProject name desc org st u br b1 b2) "description" = Value.str desc := by
      rw [mkProject, getV_pyPrune _ _ hnd]
      rfl
    have g3 : getV (mkProject name desc org st u br b1 b2) "organization" = optStr org := by
      rw [mkProject, getV_pyPrune _ _ hnd]
      cases org <;> rfl
    have g4 : getV (mkProject name desc org st u br b1 b2) "scm_type" = Value.str st := by
      rw [mkProject, getV_pyPrune _ _ hnd]
      rfl
    have g5 : getV (mkProject name desc org st u br b1 b2) "scm_url" = optStr u := by
      rw [mkProject, getV_pyPrune _ _ hnd]
      cases u <;> rfl
    have g6 : getV (mkProject name desc org st u br b1 b2) "scm_branch" = Value.str br := by
      rw [mkProject, getV_pyPrune _ _ hnd]
      rfl
    have g7 : getVD (mkProject name desc org st u br b1 b2) "scm_update_on_launch"
        (Value.bool true) = Value.bool b1 := by
      rw [mkProject, getVD_pyPrune _ _ _ hnd]
      rfl
    have g8 : getVD (mkProject name desc org st u br b1 b2) "allow_override"
        (Value.bool true) = Value.bool b2 := by
      rw [mkProject, getVD_pyPrune _ _ _ hnd]
      rfl
    have e1 : _stripped (Value.str name) = Value.str name := by simp [_stripped, hn]
    have e2 : pyOr (Value.str desc) (Value.str "") = Value.str desc := by
      by_cases hd : desc = ""
      · subst hd
        rfl
      · simp [pyOr, truthy, hd]
    have e3 := optRef_roundtrip org ho
    have e4 : ∀ w, pyOr (Value.str st) w = Value.str st := fun w => by
      simp [pyOr, truthy, hst]
    have e6 : pyOr (Value.str br) (Value.str "main") = Value.str br := by
      simp [pyOr, truthy, hbr]
    simp only [normalize_project, g1, g2, g3, g4, g5, g6, g7, g8,
      e1, e2, e3, e4, e6, bool_truthy_id]
    rw [mkProject, projFull]
  · intro name desc org vars kind hn ho hk
    have hnd : ((invFull name desc org vars kind).map Prod.fst).Nodup := by
      simp [invFull]
    have g1 : getV (mkInventory name desc org vars kind) "name" = Value.str name := by
      rw [mkInventory, getV_pyPrune _ _ hnd]
      rfl
    have g2 : getV (mkInventory name desc org vars kind) "description" = Value.str desc := by
      rw [mkInventory, getV_pyPrune _ _ hnd]
      rfl
    have g3 : getV (mkInventory name desc org vars kind) "organization" = optStr org := by
      rw [mkInventory, getV_pyPrune _ _ hnd]
      cases org <;> rfl
    have g5 : getV (mkInventory name desc org vars kind) "kind" = Value.str kind := by
      rw [mkInventory, getV_pyPrune _ _ hnd]
      rfl
    have ev : pyOr (getV (mkInventory name desc org vars kind) "variables") (Value.dict [])
        = Value.dict vars := by
      rw [mkInventory, getV_pyPrune _ _ hnd]
      cases vars with
      | nil => rfl
      | cons a t => rfl
    have e1 : _stripped (Value.str name) = Value.str name := by simp [_stripped, hn]
    have e2 : pyOr (Value.str desc) (Value.str "") = Value.str desc := by
      by_cases hd : desc = ""
      · subst hd
        rfl
      · simp [pyOr, truthy, hd]
    have e3 := optRef_roundtrip org ho
    have e5 : pyOr (Value.str kind) (Value.str "normal") = Value.str kind := by
      simp [pyOr, truthy, hk]
    simp only [normalize_inventory, g1, g2, g3, g5, ev, e1, e2, e3, e5]
    rw [mkInventory, invFull]
  · intro name desc org proj inv ee jt pb creds survey lim verb
      hn ho hp hi he hjt hcreds
    have hnd : ((tmplFull name desc org proj inv ee jt pb creds survey lim verb).map
        Prod.fst).Nodup := by
      simp [tmplFull]
    have g1 : getV (mkTemplate name desc org proj inv ee jt pb creds survey lim verb)
        "name" = Value.str name := by
      rw [mkTemplate, getV_pyPrune _ _ hnd]
      rfl
    have g2 : getV (mkTemplate name desc org proj inv ee jt pb creds survey lim verb)
        "description" = Value.str desc := by
      rw [mkTemplate, getV_pyPrune _ _ hnd]
      rfl
    have g3 : getV (mkTemplate name desc org proj inv ee jt pb creds survey lim verb)
        "organization" = optStr org := by
      rw [mkTemplate, getV_pyPrune _ _ hnd]
      cases org <;> rfl
    have g4 : getV (mkTemplate name desc org proj inv ee jt pb creds survey lim verb)
        "project" = optStr proj := by
      rw [mkTemplate, getV_pyPrune _ _ hnd]
      cases proj <;> rfl
    have g5 : getV (mkTemplate name desc org proj inv ee jt pb creds survey lim verb)
        "inventory" = optStr inv := by
      rw [mkTemplate, getV_pyPrune _ _ hnd]
      cases inv <;> rfl
    have g6 : getV (mkTemplate name desc org proj inv ee jt pb creds survey lim verb)
        "execution_environment" = optStr ee := by
      rw [mkTemplate, getV_pyPrune _ _ hnd]
      cases ee <;> rfl
    have g7 : getV (mkTemplate name desc org proj inv ee jt pb creds survey lim verb)
        "job_type" = Value.str jt := by
      rw [mkTemplate, getV_pyPrune _ _ hnd]
      rfl
    have g8 : getV (mkTemplate name desc org proj inv ee jt pb creds survey lim verb)
        "playbook" = optStr pb := by
      rw [mkTemplate, getV_pyPrune _ _ hnd]
      cases pb <;> rfl
    have g9 : getV (mkTemplate name desc org proj inv ee jt pb creds survey lim verb)
        "survey_enabled" = Value.bool survey := by
      rw [mkTemplate, getV_pyPrune _ _ hnd]
      rfl
    have g10 : getV (mkTemplate name desc org proj inv ee jt pb creds survey lim verb)
        "limit" = Value.str lim := by
      rw [mkTemplate, getV_pyPrune _ _ hnd]
      rfl
    have g11 : getV (mkTemplate name desc org proj inv ee jt pb creds survey lim verb)
        "verbosity" = Value.int verb := by
      rw [mkTemplate, getV_pyPrune _ _ hnd]
      rfl
    have ecred : pyIter (pyOr (getV (mkTemplate name desc org proj inv ee jt pb creds
        survey lim verb) "credentials") (Value.list []))
        = some (creds.map Value.str) := by
      rw [mkTemplate, getV_pyPrune _ _ hnd]
      cases creds with
      | nil => rfl
      | cons a tl => rfl
    have eres := resolveCreds_map creds hcreds
    have e1 : _stripped (Value.str name) = Value.str name := by simp [_stripped, hn]
    have e2 : pyOr (Value.str desc) (Value.str "") = Value.str desc := by
      by_cases hd : desc = ""
      · subst hd
        rfl
      · simp [pyOr, truthy, hd]
    have e3 := optRef_roundtrip org ho
    have e4 := optRef_roundtrip proj hp
    have e5 := optRef_roundtrip inv hi
    have e6 := optRef_roundtrip ee he
    have e7 : pyOr (Value.str jt) (Value.str "run") = Value.str jt := by
      simp [pyOr, truthy, hjt]
    have e10 : pyOr (Value.str lim) (Value.str "") = Value.str lim := by
      by_cases hl : lim = ""
      · subst hl
        rfl
      · simp [pyOr, truthy, hl]
    have e11 : pyOr (Value.int verb) (Value.int 0) = Value.int verb := by
      by_cases hv : verb = 0
      · subst hv
        rfl
      · simp [pyOr, truthy, hv]
    simp only [normalize_job_template, ecred, eres, g1, g2, g3, g4, g5, g6, g7, g8,
      g9, g10, g11, e1, e2, e3, e4, e5, e6, e7, e10, e11, bool_truthy_id]
    rw [mkTemplate, tmplFull]
  · intro name desc org hn ho
    have hnd : ((wfFull name desc org).map Prod.fst).Nodup := by
      simp [wfFull]
    have g1 : getV (mkWorkflow name desc org) "name" = Value.str name := by
      rw [mkWorkflow, getV_pyPrune _ _ hnd]
      rfl
    have g2 : getV (mkWorkflow name desc org) "description" = Value.str desc := by
      rw [mkWorkflow, getV_pyPrune _ _ hnd]
      rfl
    have g3 : getV (mkWorkflow name desc org) "organization" = optStr org := by
      rw [mkWorkflow, getV_pyPrune _ _ hnd]
      cases org <;> rfl
    have e1 : _stripped (Value.str name) = Value.str name := by simp [_stripped, hn]
    have e2 : pyOr (Value.str desc) (Value.str "") = Value.str desc := by
      by_cases hd : desc = ""
      · subst hd
        rfl
      · simp [pyOr, truthy, hd]
    have e3 := optRef_roundtrip org ho
    simp only [normalize_workflow_template, g1, g2, g3, e1, e2, e3]
    rw [mkWorkflow, wfFull]
  · intro name image org pull hn hi ho
    have hnd : ((eeFull name image org pull).map Prod.fst).Nodup := by
      simp [eeFull]
    have g1 : getV (mkEE name image org pull) "name" = Value.str name := by
      rw [mkEE, getV_pyPrune _ _ hnd]
      rfl
    have g2 : getV (mkEE name image org pull) "image" = Value.str image := by
      rw [mkEE, getV_pyPrune _ _ hnd]
      rfl
    have g3 : getV (mkEE name image org pull) "organization" = optStr org := by
      rw [mkEE, getV_pyPrune _ _ hnd]
      cases org <;> rfl
    have g4 : getVD (mkEE name image org pull) "pull" (Value.str "missing")
        = Value.str pull := by
      rw [mkEE, getVD_pyPrune _ _ _ hnd]
      rfl
    have e1 : _stripped (Value.str name) = Value.str name := by simp [_stripped, hn]
    have e2 : _stripped (Value.str image) = Value.str image := by simp [_stripped, hi]
    have e3 := optRef_roundtrip org ho
    simp only [normalize_execution_environment, g1, g2, g3, g4, e1, e2, e3]
    rw [mkEE, eeFull]
  · intro c s hs hct
    have hv : pyOr (getV c "credential_type") (Value.dict []) = Value.str s := by
      rw [hct]
      simp [pyOr, truthy, hs]
    simp [normalize_credential, hv, pyDict]

/-- Witness for C4's amended theorem at a concrete canonical project and a
concrete canonical credential. -/
theorem c4_witness :
    normalize_project (mkProject "Web" "" (some "Org") "git" (some "https://x") "main" true true)
      = mkProject "Web" "" (some "Org") "git" (some "https://x") "main" true true
  ∧ normalize_credential [("name", Value.str "c"), ("credential_type", Value.str "Machine")]
      = none :=
  ⟨c4_idempotence_amended.2.1 "Web" "" (some "Org") "git" (some "https://x") "main" true true
     (by decide) (by decide) (by decide) (by decide),
   c4_idempotence_amended.2.2.2.2.2.2
     [("name", Value.str "c"), ("credential_type", Value.str "Machine")]
     "Machine" (by decide) rfl⟩
